import Mathlib

/-!
Verification of the TypespecAutomation test harness core.

A shallow embedding of `src/common/utils.ts` (isolated launch fixture,
retry/poll engine, ordered screenshot capture) together with theorems
checking the specification's claims against that code.

Conventions of the embedding:
* asynchronous side-effecting code is embedded as a pure function that
  returns the list of observable events it performs, in program order;
* JavaScript millisecond timestamps (`+new Date()`) are embedded as `Int`
  (for frame capture times) or `Nat` (milliseconds for `moment()` clock);
* image buffers are opaque and embedded as `Nat` identifiers;
* `Array.prototype.sort` with comparator `(a, b) => a.date - b.date` is a
  stable sort ascending by `date` (ECMAScript 2019 requires sort
  stability); it is embedded as `List.insertionSort`, a stable sort.
-/

namespace TypespecAutomation

/-- Observable events performed by the retry/poll engine of
`src/common/utils.ts` (function `retry`, lines 110-127). -/
inductive REvent where
  /-- Source `await sleep(gap)` — one wait of the configured interval, in seconds. -/
  | wait (gap : Nat)
  /-- the `k`-th invocation (0-based) of the predicate `fn`, returning `r`. -/
  | check (k : Nat) (r : Bool)
  /-- Source `await screenShot.screenShot(name)` — a diagnostic capture. -/
  | captureShot (name : String)
  /-- Source `screenShot.save()` — flush of all buffered frames to disk. -/
  | flushShots
  /-- teardown of the running host application. -/
  | closeHost
  /-- Source `throw new Error(msg)`. -/
  | throwErr (msg : String)
  deriving DecidableEq

/-- Modelled from the spec: `closeVscode` is imported by `utils.ts` from
`./commonSteps`, a file not present in the sources; per the spec it
"forces teardown of the current Application Handle". It is embedded as the
single opaque teardown event `REvent.closeHost`. -/
def closeVscode : REvent := REvent.closeHost

/-- The `while (count > 0)` loop of `retry` (utils.ts lines 116-122):
each iteration awaits `sleep(gap)`, invokes `fn`, returns on `true`,
otherwise decrements `count`. `n` is the remaining loop fuel
(`count.toNat`), `k` the 0-based index of the next predicate invocation.
Returns the events performed and whether the loop exited via `return`
(predicate success). -/
def retryLoop (f : Nat → Bool) (gap : Nat) : Nat → Nat → List REvent × Bool
  | 0, _ => ([], false)
  | n + 1, k =>
    if f k then ([REvent.wait gap, REvent.check k true], true)
    else
      let rest := retryLoop f gap n (k + 1)
      (REvent.wait gap :: REvent.check k false :: rest.1, rest.2)

/-- Function `retry(count, fn, errMessage, gap)` of utils.ts lines 110-127
(`gap` defaults to `2` in the source; here it is always explicit).
`count` is an `Int` because a JavaScript caller may pass zero or a
negative number; the `while (count > 0)` loop then runs `count.toNat`
times at most. On predicate success the function returns normally; on
exhaustion it performs, in source order:
`await screenShot.screenShot("error.png")`, `screenShot.save()`,
`await closeVscode()`, `throw new Error(errMessage)`. -/
def retry (count : Int) (f : Nat → Bool) (errMessage : String) (gap : Nat) :
    List REvent × Except String Unit :=
  let r := retryLoop f gap count.toNat 0
  if r.2 then (r.1, Except.ok ())
  else
    (r.1 ++ [REvent.captureShot "error.png", REvent.flushShots, closeVscode,
             REvent.throwErr errMessage],
     Except.error errMessage)

/-- The screenshot categories of the `Screenshot` class
(`createType: "create" | "emit" | "import" | "preview"`, utils.ts line 142).
`import` is a Lean keyword, so that alternative is named `imp`. -/
inductive CreateType where
  | create
  | emit
  | imp
  | preview
  deriving DecidableEq

/-- Field `typeMenu` of the `Screenshot` class (utils.ts lines 149-154): the
folder name corresponding to each screenshot type. -/
def typeMenu : CreateType → String
  | CreateType.create => "CreateTypeSpecProject"
  | CreateType.emit => "EmitFromTypeSpec"
  | CreateType.imp => "ImportTypeSpecFromOpenAPI3"
  | CreateType.preview => "PreviewAPIDocument"

/-- One element of `Screenshot.fileList` (utils.ts lines 144-148): a
buffered captured frame awaiting flush. The image buffer is opaque and
embedded as a `Nat` identifier; `date` is the `+new Date()` millisecond
timestamp taken at capture time. -/
structure Frame where
  fullPath : String
  buffer : Nat
  date : Int
  deriving DecidableEq

/-- The mutable fields of the `Screenshot` singleton
(utils.ts lines 141-155). -/
structure ScreenshotState where
  createType : CreateType
  currentDir : String
  fileList : List Frame
  deriving DecidableEq

/-- The comparator `(a, b) => a.date - b.date` of `this.fileList.sort`
(utils.ts line 165), as the "ascending by date" order used by the stable
sort. -/
def dateLe (a b : Frame) : Prop := a.date ≤ b.date

instance : DecidableRel dateLe := fun a b => Int.decLe a.date b.date

instance : IsTotal Frame dateLe := ⟨fun a b => Int.le_total a.date b.date⟩

instance : IsTrans Frame dateLe := ⟨fun _ _ _ hab hbc => Int.le_trans hab hbc⟩

/-- JavaScript `string.split(sep)` for a one-character separator, on the
character list: the (always non-empty) list of chunks between occurrences
of `c`. `acc` holds the current chunk, reversed. -/
def splitOnCharAux (c : Char) : List Char → List Char → List (List Char)
  | [], acc => [acc.reverse]
  | x :: xs, acc =>
    if x = c then acc.reverse :: splitOnCharAux c xs []
    else splitOnCharAux c xs (x :: acc)

/-- JavaScript `string.split(sep)` for a one-character separator. -/
def splitOnChar (c : Char) (s : String) : List String :=
  (splitOnCharAux c s.data []).map String.mk

/-- Node `path.join(...parts)` restricted to the re-join performed by
`Screenshot.save`: the segments are interleaved with the platform
separator (the segment lists arising there contain no empty, `"."` or
`".."` segments, on which Node's `join` performs no further
normalization). -/
def joinSep (sep : String) : List String → String
  | [] => ""
  | [x] => x
  | x :: y :: xs => x ++ sep ++ joinSep sep (y :: xs)

/-- The split `fileName.substring(0, lastslashIdx + 1)` / `substring(lastslashIdx + 1)`
where `lastslashIdx = fileName.lastIndexOf("/")` (utils.ts lines 173-177):
splits a string just after its last `'/'`; `none` when the string contains
no `'/'` (`lastIndexOf` returned `-1`). Implemented by splitting on `'/'`:
the part up to and including the last slash, and the part after it. -/
def lastSlashSplit (s : String) : Option (String × String) :=
  let parts := splitOnChar '/' s
  if parts.length ≤ 1 then none
  else some (joinSep "/" parts.dropLast ++ "/", parts.getLastD "")

/-- The ordinal-prefix insertion performed on one buffered path by
`Screenshot.save` (utils.ts lines 166-186), followed by the
`path.join(...fullPathItem)` re-join. The path is split on `"\\"` (a
single backslash character); on win32 the ordinal `i` is prepended (as
`i_`) to the final segment; otherwise it is inserted after the last `'/'`
of the final segment, or at the start when there is none. The segments
are rejoined with the platform separator. -/
def prefixOrdinal (isWin : Bool) (i : Nat) (fullPath : String) : String :=
  let parts := splitOnChar '\\' fullPath
  let lastPart := parts.getLastD ""
  let newLast :=
    if isWin then
      toString i ++ "_" ++ lastPart
    else
      match lastSlashSplit lastPart with
      | some (dirPart, fileName) => dirPart ++ toString i ++ "_" ++ fileName
      | none => toString i ++ "_" ++ lastPart
  joinSep (if isWin then "\\" else "/") (parts.dropLast ++ [newLast])

/-- Method `Screenshot.save` (utils.ts lines 160-188): a no-op on an empty
buffer; otherwise sorts `fileList` in place ascending by `date` — JS
`Array.prototype.sort` is stable, embedded as the stable
`List.insertionSort` ("Smaller dates are placed first to keep the files
in order") — and writes the `i`-th sorted frame's buffer to its full path
with the ordinal `i` prefixed to the final path segment. Returns the
ordered list of (written path, buffer) pairs and the post-call state;
`fs.mkdirSync` is not an observable of any claim and is omitted. -/
def save (isWin : Bool) (st : ScreenshotState) :
    List (String × Nat) × ScreenshotState :=
  if st.fileList.length = 0 then ([], st)
  else
    let sorted := st.fileList.insertionSort dateLe
    (sorted.enum.map (fun p => (prefixOrdinal isWin p.1 p.2.fullPath, p.2.buffer)),
     { st with fileList := sorted })

/-- Node's `path.join` on the argument shapes used by
`Screenshot.screenShot` (utils.ts lines 198-204): each later segment may
carry one leading separator (e.g. `"/images-windows"`), which `join`
collapses into the single separator it inserts anyway; the segments are
then joined with the platform separator. -/
def pathJoin (sep : Char) (parts : List String) : String :=
  joinSep (String.singleton sep)
    (parts.map (fun s =>
      if s.data.head? = some sep then String.mk s.data.tail else s))

/-- The destination path built by `Screenshot.screenShot` (utils.ts
lines 194-204): the artifact root, the platform image directory, the
category folder, the current case directory and the file name, joined by
the platform. `rootDir` abstracts
`BUILD_ARTIFACT_STAGING_DIRECTORY || path.resolve(__dirname, "../..")`. -/
def screenShotFullPath (isWin : Bool) (rootDir : String) (st : ScreenshotState)
    (fileName : String) : String :=
  pathJoin (if isWin then '\\' else '/')
    [rootDir, if isWin then "/images-windows" else "/images-linux",
     typeMenu st.createType, st.currentDir, fileName]

/-- Method `Screenshot.screenShot(fileName)` (utils.ts lines 190-210): waits a
settle delay, grabs a whole-screen image (the opaque buffer `img`), and
appends to `fileList` a frame carrying the destination path and the
current wall-clock time `now` (`+new Date()`). -/
def screenShot (isWin : Bool) (rootDir : String) (st : ScreenshotState)
    (fileName : String) (img : Nat) (now : Int) : ScreenshotState :=
  { st with fileList :=
      st.fileList ++ [⟨screenShotFullPath isWin rootDir st fileName, img, now⟩] }

/-- Two-digit zero-padded rendering of one time field, as produced by
`moment().format` for `HH`, `mm`, `ss`. -/
def pad2 (n : Nat) : String := if n < 10 then "0" ++ toString n else toString n

/-- The suffix `moment().format("_HH_mm_ss")` (utils.ts line 213) at `tms`
milliseconds of local wall-clock time (any timezone offset is already
folded into `tms`): hour-minute-second of day, one-second resolution. -/
def formatHHmmss (tms : Nat) : String :=
  let s := tms / 1000
  "_" ++ pad2 (s / 3600 % 24) ++ "_" ++ pad2 (s / 60 % 60) ++ "_" ++ pad2 (s % 60)

/-- Method `Screenshot.setDir(dir)` (utils.ts lines 212-215) at wall-clock time
`now` (milliseconds): sets the case directory to the case name followed
by the `_HH_mm_ss` suffix and resets the frame buffer to empty. -/
def setDir (st : ScreenshotState) (dir : String) (now : Nat) : ScreenshotState :=
  { st with currentDir := dir ++ formatHHmmss now, fileList := [] }

/-- Observable events performed by the `launch` fixture body
(utils.ts lines 33-96), in program order. -/
inductive LEvent where
  /-- Source `fs.promises.mkdtemp(path.join(os.tmpdir(), "typespec-automation"))`. -/
  | mkTempDir
  /-- Source `_electron.launch({...})` — the host process is started (line 48). -/
  | launchProcess
  /-- Source `app.firstWindow()` — the main interactive surface is obtained (line 68). -/
  | firstWindow
  /-- Source `fs.writeFileSync(userSettingsPath, ...)` — the minimal user-settings
  document is written into `<tempDir>/user-data/User/settings.json`
  (lines 75-85). -/
  | writeSettings
  /-- Source `return { page, extensionDir }` — the handle is returned (line 92). -/
  | returnHandle
  deriving DecidableEq

/-- The straight-line body of the function the `launch` fixture passes to
callers (utils.ts lines 36-93), as its ordered event trace. -/
def launchBody : List LEvent :=
  [LEvent.mkTempDir, LEvent.launchProcess, LEvent.firstWindow,
   LEvent.writeSettings, LEvent.returnHandle]

/-- The body of one `launch` call as far as the fixture's `teardowns`
list is concerned (utils.ts lines 36-93): the body launches the host and
returns `{ page, extensionDir }` but never pushes anything onto
`teardowns`, so the list is returned unchanged. `handle` identifies the
Application Handle the call returned. -/
def launchRegisterTeardown (teardowns : List Nat) (handle : Nat) : List Nat :=
  teardowns

/-- The teardown operations the fixture invokes after its scope ends
(utils.ts line 95: `for (const teardown of teardowns) await teardown()`),
given the handles returned by the `use`-phase `launch` calls: `teardowns`
starts empty (line 34), each `launch` call leaves it unchanged, and every
entry of the final list is invoked. -/
def fixtureTeardownCalls (handles : List Nat) : List Nat :=
  handles.foldl launchRegisterTeardown []

/-- On an always-false predicate, the retry loop performs exactly one
wait-then-check pair per unit of fuel and reports failure. -/
theorem retryLoop_false (f : Nat → Bool) (gap : Nat) (hf : ∀ k, f k = false) :
    ∀ n k0, retryLoop f gap n k0 =
      ((List.range' k0 n).flatMap (fun j => [REvent.wait gap, REvent.check j false]),
       false) := by
  intro n
  induction n with
  | zero => intro k0; simp [retryLoop]
  | succ m ih =>
    intro k0
    simp only [retryLoop, hf k0, Bool.false_eq_true, if_false, ih (k0 + 1),
      List.range'_succ]
    simp

/-- C3: For every positive `n`, `retry n fn msg gap` with an always-false
predicate performs exactly `n` predicate invocations, the `j`-th preceded
by one wait of the configured interval, and then raises an error carrying
the caller-supplied message `msg`. -/
theorem retry_always_false_trace (n : Nat) (hn : 0 < n) (msg : String) (gap : Nat) :
    retry (n : Int) (fun _ => false) msg gap =
      ((List.range n).flatMap (fun j => [REvent.wait gap, REvent.check j false]) ++
        [REvent.captureShot "error.png", REvent.flushShots, REvent.closeHost,
         REvent.throwErr msg],
       Except.error msg) := by
  have h := retryLoop_false (fun _ => false) gap (fun _ => rfl) n 0
  have htn : ((n : Int)).toNat = n := Int.toNat_natCast n
  simp only [retry, htn, h, List.range_eq_range']
  rfl

/-- Witness for C3 at `n = 3`. -/
theorem retry_always_false_trace_witness :
    0 < 3 ∧
    retry (3 : Int) (fun _ => false) "boom" 2 =
      ((List.range 3).flatMap (fun j => [REvent.wait 2, REvent.check j false]) ++
        [REvent.captureShot "error.png", REvent.flushShots, REvent.closeHost,
         REvent.throwErr "boom"],
       Except.error "boom") :=
  ⟨by decide, retry_always_false_trace 3 (by decide) "boom" 2⟩

/-- C1: when the predicate fails on every attempt, `retry` follows its
attempt events with, in this exact order: the diagnostic capture tagged
`"error.png"`, the flush of buffered frames, the teardown of the host
application, and only then the raised error carrying the caller-supplied
message verbatim. -/
theorem retry_exhaustion_order (count : Int) (f : Nat → Bool) (msg : String)
    (gap : Nat) (hf : ∀ k, f k = false) :
    ∃ attempts : List REvent,
      (∀ e ∈ attempts, e = REvent.wait gap ∨ ∃ k, e = REvent.check k false) ∧
      retry count f msg gap =
        (attempts ++ [REvent.captureShot "error.png", REvent.flushShots,
                      REvent.closeHost, REvent.throwErr msg],
         Except.error msg) := by
  refine ⟨(List.range' 0 count.toNat).flatMap
    (fun j => [REvent.wait gap, REvent.check j false]), ?_, ?_⟩
  · intro e he
    simp only [List.mem_flatMap, List.mem_cons, List.not_mem_nil, or_false] at he
    obtain ⟨j, -, hj⟩ := he
    rcases hj with h | h
    · exact Or.inl h
    · exact Or.inr ⟨j, h⟩
  · simp only [retry, retryLoop_false f gap hf count.toNat 0]
    rfl

/-- Witness for C1 at budget 2, always-false predicate. -/
theorem retry_exhaustion_order_witness :
    (∀ k : Nat, (fun _ : Nat => false) k = false) ∧
    ∃ attempts : List REvent,
      (∀ e ∈ attempts, e = REvent.wait 2 ∨ ∃ k, e = REvent.check k false) ∧
      retry 2 (fun _ => false) "timed out" 2 =
        (attempts ++ [REvent.captureShot "error.png", REvent.flushShots,
                      REvent.closeHost, REvent.throwErr "timed out"],
         Except.error "timed out") :=
  ⟨fun _ => rfl, retry_exhaustion_order 2 (fun _ => false) "timed out" 2 (fun _ => rfl)⟩

/-- C4 counterexample: with an attempt budget of `0` the engine performs
no wait at all — the `while (count > 0)` loop body is never entered — and
goes straight to the failure path, so the claim that it "always waits at
least one interval before the first check" is false. -/
theorem retry_zero_budget_counterexample :
    retry 0 (fun _ => false) "msg" 2 =
      ([REvent.captureShot "error.png", REvent.flushShots, REvent.closeHost,
        REvent.throwErr "msg"],
       Except.error "msg") ∧
    REvent.wait 2 ∉ (retry 0 (fun _ => false) "msg" 2).1 := by
  constructor
  · rfl
  · decide

/-- C4 amended: an attempt budget of zero or a negative number takes the
failure path immediately — with no wait of the configured interval and
without ever invoking the predicate — performing the diagnostic capture,
the flush, the teardown, and raising the caller-supplied message. -/
theorem retry_nonpositive_budget (count : Int) (f : Nat → Bool) (msg : String)
    (gap : Nat) (hc : count ≤ 0) :
    retry count f msg gap =
      ([REvent.captureShot "error.png", REvent.flushShots, REvent.closeHost,
        REvent.throwErr msg],
       Except.error msg) := by
  have h0 : count.toNat = 0 := Int.toNat_eq_zero.mpr hc
  simp only [retry, h0, retryLoop]
  rfl

/-- Witness for the amended C4 at budget `-1`. -/
theorem retry_nonpositive_budget_witness :
    (-1 : Int) ≤ 0 ∧
    retry (-1) (fun _ => true) "msg" 2 =
      ([REvent.captureShot "error.png", REvent.flushShots, REvent.closeHost,
        REvent.throwErr "msg"],
       Except.error "msg") :=
  ⟨by decide, retry_nonpositive_budget (-1) (fun _ => true) "msg" 2 (by decide)⟩

/-- The writes issued by `Screenshot.save`: the post-sort frames, each at
its ordinal-prefixed path (also when the buffer is empty, in which case
both sides are `[]`). -/
theorem save_writes_eq (isWin : Bool) (st : ScreenshotState) :
    (save isWin st).1 = (st.fileList.insertionSort dateLe).enum.map
      (fun p => (prefixOrdinal isWin p.1 p.2.fullPath, p.2.buffer)) := by
  by_cases h : st.fileList.length = 0
  · have he : st.fileList = [] := List.length_eq_zero.mp h
    simp [save, h, he, List.insertionSort]
  · simp [save, h]

/-- The subsequence of the buffer consisting of the frames with a given
capture timestamp is left unchanged by the stable sort of
`Screenshot.save`. -/
theorem insertionSort_filter_date_eq (l : List Frame) (d : Int) :
    (l.insertionSort dateLe).filter (fun f => f.date == d) =
      l.filter (fun f => f.date == d) := by
  have hall : ∀ f ∈ l.filter (fun f => f.date == d), f.date = d := by
    intro f hf
    simpa using (List.mem_filter.mp hf).2
  have hsub : (l.filter (fun f => f.date == d)).Sublist (l.insertionSort dateLe) := by
    refine List.sublist_insertionSort ?_ (List.filter_sublist l)
    refine List.pairwise_of_forall_mem_list ?_
    intro a ha b hb
    show a.date ≤ b.date
    rw [hall a ha, hall b hb]
  have h1 : (l.filter (fun f => f.date == d)).Sublist
      ((l.insertionSort dateLe).filter (fun f => f.date == d)) := by
    have h2 := hsub.filter (fun f => f.date == d)
    rwa [List.filter_eq_self.mpr (fun a ha => by simp [hall a ha])] at h2
  have hperm : ((l.insertionSort dateLe).filter (fun f => f.date == d)).Perm
      (l.filter (fun f => f.date == d)) :=
    (List.perm_insertionSort dateLe l).filter _
  exact (h1.eq_of_length hperm.length_eq.symm).symm

/-- C2: for a buffer of frames with pairwise distinct capture timestamps,
the frames that `save` (flush) writes are a permutation of the buffer,
strictly ascending in capture timestamp, and the frame at sorted position
`i` is written with ordinal prefix `i` — so the 0-based ordinal prefixes,
in numeric order, enumerate the frames in ascending capture-time order,
the earliest receiving prefix `0`. -/
theorem save_ordinals_chronological (isWin : Bool) (st : ScreenshotState)
    (hd : st.fileList.Pairwise (fun a b => a.date ≠ b.date)) :
    (st.fileList.insertionSort dateLe).Perm st.fileList ∧
    (st.fileList.insertionSort dateLe).Pairwise (fun a b => a.date < b.date) ∧
    (save isWin st).1 = (st.fileList.insertionSort dateLe).enum.map
      (fun p => (prefixOrdinal isWin p.1 p.2.fullPath, p.2.buffer)) := by
  refine ⟨List.perm_insertionSort dateLe st.fileList, ?_, save_writes_eq isWin st⟩
  have hs : (st.fileList.insertionSort dateLe).Pairwise dateLe :=
    List.sorted_insertionSort dateLe st.fileList
  have hne : (st.fileList.insertionSort dateLe).Pairwise (fun a b => a.date ≠ b.date) :=
    ((List.perm_insertionSort dateLe st.fileList).pairwise_iff
      (fun h => h.symm)).mpr hd
  exact (hs.and hne).imp (fun h => lt_of_le_of_ne h.1 h.2)

/-- Witness for C2: three frames captured at timestamps 5, 2, 9. -/
theorem save_ordinals_chronological_witness :
    (([⟨"x.png", 0, 5⟩, ⟨"y.png", 1, 2⟩, ⟨"z.png", 2, 9⟩] : List Frame).Pairwise
      (fun a b => a.date ≠ b.date)) ∧
    (((⟨CreateType.create, "", [⟨"x.png", 0, 5⟩, ⟨"y.png", 1, 2⟩, ⟨"z.png", 2, 9⟩]⟩ :
        ScreenshotState).fileList.insertionSort dateLe).Perm
      (⟨CreateType.create, "", [⟨"x.png", 0, 5⟩, ⟨"y.png", 1, 2⟩, ⟨"z.png", 2, 9⟩]⟩ :
        ScreenshotState).fileList ∧
      ((⟨CreateType.create, "", [⟨"x.png", 0, 5⟩, ⟨"y.png", 1, 2⟩, ⟨"z.png", 2, 9⟩]⟩ :
        ScreenshotState).fileList.insertionSort dateLe).Pairwise
          (fun a b => a.date < b.date) ∧
      (save false ⟨CreateType.create, "",
          [⟨"x.png", 0, 5⟩, ⟨"y.png", 1, 2⟩, ⟨"z.png", 2, 9⟩]⟩).1 =
        ((⟨CreateType.create, "", [⟨"x.png", 0, 5⟩, ⟨"y.png", 1, 2⟩, ⟨"z.png", 2, 9⟩]⟩ :
          ScreenshotState).fileList.insertionSort dateLe).enum.map
            (fun p => (prefixOrdinal false p.1 p.2.fullPath, p.2.buffer))) :=
  ⟨by decide,
   save_ordinals_chronological false
     ⟨CreateType.create, "", [⟨"x.png", 0, 5⟩, ⟨"y.png", 1, 2⟩, ⟨"z.png", 2, 9⟩]⟩
     (by decide)⟩

/-- C10 (implicit): frames with equal capture timestamps keep their
buffer insertion order through the stable sort of `save` — for every
timestamp `d`, the sorted buffer restricted to timestamp `d` equals the
buffer restricted to timestamp `d` — the writes pair ordinal `i` with
sorted position `i`, and each capture call appends to the end of the
buffer, so equal-timestamp frames are enumerated in capture-call order. -/
theorem save_equal_timestamps_insertion_order (isWin : Bool)
    (st : ScreenshotState) (d : Int) (rootDir fileName : String) (img : Nat)
    (now : Int) :
    ((st.fileList.insertionSort dateLe).filter (fun f => f.date == d) =
      st.fileList.filter (fun f => f.date == d)) ∧
    (save isWin st).1 = (st.fileList.insertionSort dateLe).enum.map
      (fun p => (prefixOrdinal isWin p.1 p.2.fullPath, p.2.buffer)) ∧
    (screenShot isWin rootDir st fileName img now).fileList =
      st.fileList ++ [⟨screenShotFullPath isWin rootDir st fileName, img, now⟩] :=
  ⟨insertionSort_filter_date_eq st.fileList d, save_writes_eq isWin st, rfl⟩

/-- C7: the ordinal-prefix insertion of `save` on both platform path
styles — a Windows path gets the ordinal on its final backslash segment,
a POSIX path gets it after the last `'/'` of its single backslash-split
segment, and a path without any separator gets it at the start. -/
theorem prefixOrdinal_platform_examples :
    prefixOrdinal true 3 "C:\\root\\cat\\case\\shot.png" =
      "C:\\root\\cat\\case\\3_shot.png" ∧
    prefixOrdinal false 3 "/root/cat/case/shot.png" =
      "/root/cat/case/3_shot.png" ∧
    prefixOrdinal false 3 "shot.png" = "3_shot.png" := by
  refine ⟨?_, ?_, ?_⟩ <;> decide

/-- C8 counterexample: flush does mutate the in-memory buffer — `save`
sorts `fileList` in place, so on a buffer holding two frames out of
timestamp order the post-flush buffer differs from the pre-flush
buffer. -/
theorem save_mutates_buffer_counterexample :
    (save false ⟨CreateType.create, "",
        [⟨"a.png", 0, 2⟩, ⟨"b.png", 1, 1⟩]⟩).2.fileList ≠
      [⟨"a.png", 0, 2⟩, ⟨"b.png", 1, 1⟩] := by decide

/-- C8 amended: flush sorts the buffer in place but neither adds, removes
nor clears frames: on an empty buffer it writes nothing and leaves the
state unchanged; the post-flush buffer is a permutation of the pre-flush
buffer; a second flush without an intervening `setDir` writes exactly the
same files; and `setDir` resets the buffer to empty. -/
theorem save_preserves_frames (isWin : Bool) (st : ScreenshotState) :
    (st.fileList = [] → save isWin st = ([], st)) ∧
    ((save isWin st).2.fileList).Perm st.fileList ∧
    (save isWin ((save isWin st).2)).1 = (save isWin st).1 ∧
    ∀ d now, (setDir st d now).fileList = [] := by
  refine ⟨?_, ?_, ?_, fun d now => rfl⟩
  · intro he
    simp [save, he]
  · by_cases h : st.fileList.length = 0
    · simp [save, h]
    · simp only [save, h, if_false]
      exact List.perm_insertionSort dateLe st.fileList
  · by_cases h : st.fileList.length = 0
    · simp [save, h]
    · simp [save, h, List.length_insertionSort,
        List.Sorted.insertionSort_eq (List.sorted_insertionSort dateLe st.fileList)]

/-- Witness for the amended C8: the empty-buffer no-op and the
`setDir` reset, via the theorem at a concrete empty state. -/
theorem save_preserves_frames_witness :
    save false ⟨CreateType.create, "", []⟩ =
      ([], ⟨CreateType.create, "", []⟩) ∧
    (setDir ⟨CreateType.create, "", []⟩ "case" 0).fileList = [] :=
  ⟨(save_preserves_frames false ⟨CreateType.create, "", []⟩).1 rfl,
   (save_preserves_frames false ⟨CreateType.create, "", []⟩).2.2.2 "case" 0⟩

/-- C6 counterexample: two scenario runs of the same case name started at
distinct moments — 0 ms and 500 ms after midnight — receive identical
case directory names: the `_HH_mm_ss` suffix has only one-second
resolution, so sub-second distinctness fails. -/
theorem setDir_subsecond_collision_counterexample :
    (0 : Nat) ≠ 500 ∧
    (setDir ⟨CreateType.create, "", []⟩ "case" 0).currentDir =
      (setDir ⟨CreateType.create, "", []⟩ "case" 500).currentDir := by
  refine ⟨by decide, ?_⟩
  decide

/-- C6 amended: the case directory name combines the case name with a
time suffix of one-second resolution that depends only on the start
time's hour-minute-second of day: runs of the same case name started at
the same second-of-day collide, and — unconditionally — two directory
names for the same case name are equal exactly when the `_HH_mm_ss`
renderings of the two start times agree (so distinct renderings give
distinct paths, and equal renderings give collisions). -/
theorem setDir_second_resolution (st st' : ScreenshotState) (c : String)
    (t1 t2 : Nat) :
    (t1 / 1000 % 86400 = t2 / 1000 % 86400 →
      (setDir st c t1).currentDir = (setDir st' c t2).currentDir) ∧
    ((setDir st c t1).currentDir = (setDir st' c t2).currentDir ↔
      formatHHmmss t1 = formatHHmmss t2) := by
  have hiff : (setDir st c t1).currentDir = (setDir st' c t2).currentDir ↔
      formatHHmmss t1 = formatHHmmss t2 := by
    constructor
    · intro hcd
      have hd := congrArg String.data hcd
      simp only [setDir, String.data_append] at hd
      exact String.ext (List.append_cancel_left hd)
    · intro hf
      simp [setDir, hf]
  refine ⟨fun h => hiff.mpr ?_, hiff⟩
  have e1 : t1 / 1000 / 3600 % 24 = t2 / 1000 / 3600 % 24 := by omega
  have e2 : t1 / 1000 / 60 % 60 = t2 / 1000 / 60 % 60 := by omega
  have e3 : t1 / 1000 % 60 = t2 / 1000 % 60 := by omega
  simp [formatHHmmss, e1, e2, e3]

/-- Witness for the amended C6: start times 1000 ms and 86401000 ms
(one second past midnight on two consecutive days) share their
second-of-day, hence their case directory name; the equality/rendering
biconditional is instantiated at the same pair. -/
theorem setDir_second_resolution_witness :
    (setDir ⟨CreateType.create, "", []⟩ "case" 1000).currentDir =
      (setDir ⟨CreateType.create, "", []⟩ "case" 86401000).currentDir ∧
    ((setDir ⟨CreateType.create, "", []⟩ "case" 1000).currentDir =
        (setDir ⟨CreateType.create, "", []⟩ "case" 86401000).currentDir ↔
      formatHHmmss 1000 = formatHHmmss 86401000) :=
  ⟨(setDir_second_resolution ⟨CreateType.create, "", []⟩
      ⟨CreateType.create, "", []⟩ "case" 1000 86401000).1 (by decide),
   (setDir_second_resolution ⟨CreateType.create, "", []⟩
      ⟨CreateType.create, "", []⟩ "case" 1000 86401000).2⟩

/-- C5 counterexample: in the launch fixture's body the write of the
user-settings document does not precede the start of the host process —
`fs.writeFileSync` (utils.ts line 75) executes after `_electron.launch`
(line 48) and after `app.firstWindow()` (line 68). -/
theorem launch_settings_not_before_start_counterexample :
    ¬ (launchBody.indexOf LEvent.writeSettings <
       launchBody.indexOf LEvent.launchProcess) ∧
    ¬ (launchBody.indexOf LEvent.writeSettings <
       launchBody.indexOf LEvent.firstWindow) := by decide

/-- C5 amended: the launch fixture writes the minimal user-settings
document into the isolated user-settings subdirectory only after the host
process has been started and its main surface obtained, but before the
application handle is returned to the caller. -/
theorem launch_settings_write_position :
    launchBody.indexOf LEvent.launchProcess <
      launchBody.indexOf LEvent.writeSettings ∧
    launchBody.indexOf LEvent.firstWindow <
      launchBody.indexOf LEvent.writeSettings ∧
    launchBody.indexOf LEvent.writeSettings <
      launchBody.indexOf LEvent.returnHandle := by decide

/-- C9: the launch fixture's teardown phase invokes no close operation at
all — the `teardowns` list starts empty and no `launch` call ever
registers anything on it, so after the fixture's scope ends, zero
teardowns have run on the returned Application Handles (here evaluated at
one returned handle, and for any number of them). -/
theorem fixture_invokes_no_teardown :
    fixtureTeardownCalls [0] = [] ∧
    ∀ handles : List Nat, fixtureTeardownCalls handles = [] := by
  refine ⟨rfl, ?_⟩
  intro handles
  induction handles with
  | nil => rfl
  | cons h t ih => exact ih

end TypespecAutomation
